import Mathlib

/-!
# Verification of the adaptive classification / convergent validation-repair core

Shallow embedding of the classification and validation-repair pipeline:

* `src/layer2_semantic/classifiers/rule_based_classifier.py` (Tier 1 rule scorer)
* `src/layer2_semantic/classifiers/fusion_engine.py`         (fusion engine)
* `src/layer2_semantic/classifiers/llm_classifier.py`        (Tier 2 model adapter)
* `src/layer2_semantic/active_learning.py`                   (Tier 3 escalation queue)
* `src/layer4_quality_assurance/dita_ot_validator.py`        (builtin structural validator)
* `src/layer4_quality_assurance/intelligent_repairer.py`     (repair engine)
* `src/layer4_quality_assurance/validation_loop.py`          (convergence loop)
* `src/layer4_quality_assurance/quality_reporter.py`         (quality scorer/reporter)

Python floats are modelled as `Rat`; Python dict-shaped records as Lean
structures; external library calls (lxml parsing of a raw string, the LLM
service) are modelled as oracle inputs.  XML documents are modelled as their
parse trees together with an XML-declaration flag; document equality in the
model corresponds to string equality of documents in serializer normal form.
-/

namespace DitaCore

/-- The canonical DITA content categories, in their fixed declaration order
(`['Task', 'Concept', 'Reference']` in the source). -/
inductive Category where
  | task
  | concept
  | reference
deriving DecidableEq, Repr

/-- A score map over the three canonical categories
(a Python dict `{"Task": _, "Concept": _, "Reference": _}` built in that
insertion order). -/
structure Scores where
  task : Rat
  concept : Rat
  reference : Rat
deriving DecidableEq, Repr

/-- `scores.get(ctype, 0.0)` restricted to canonical keys. -/
def Scores.get (s : Scores) : Category → Rat
  | .task => s.task
  | .concept => s.concept
  | .reference => s.reference

/-- `sum(scores.values())`. -/
def Scores.total (s : Scores) : Rat :=
  s.task + s.concept + s.reference

/-- `{k: v / total for k, v in scores.items()}`. -/
def Scores.normalize (s : Scores) (total : Rat) : Scores :=
  ⟨s.task / total, s.concept / total, s.reference / total⟩

/-- `max(scores, key=scores.get)` over a dict with insertion order
Task, Concept, Reference: Python `max` keeps the earliest key among
exactly-equal maxima, replacing the current best only on strictly
greater values. -/
def argmaxCanonical (s : Scores) : Category :=
  let b1 : Category := .task
  let b2 : Category := if s.concept > s.get b1 then .concept else b1
  if s.reference > s.get b2 then .reference else b2

/-- One titled unit of source text (`chunk`); the classifiers read
`chunk['title']` and `chunk['content']`. -/
structure ContentChunk where
  id : String
  title : String
  content : String
deriving DecidableEq, Repr

/-- The feature map consumed by the Tier 1 rule scorer.  The source reads
every key defensively via `features.get(key, default)`, so a missing key is
observationally the default value and the feature map is modelled as a
total record. -/
structure Features where
  has_numbered_list : Bool := false
  imperative_verbs : Int := 0
  action_verbs : Int := 0
  has_bullet_list : Bool := false
  has_table : Bool := false
  table_count : Int := 0
  word_count : Int := 0
  code_blocks : Int := 0
  named_entities : Int := 0
  has_definition : Bool := false
  is_statements : Int := 0
  noun_count : Int := 0
  verb_count : Int := 1
deriving DecidableEq, Repr

/-- Python `str.lower()` (ASCII case folding; the classifier titles and
ids the model evaluates are ASCII). -/
def pyLower (s : String) : String :=
  String.mk (s.toList.map Char.toLower)

/-- `pat in s` for Python strings (substring containment). -/
def strContains (s pat : String) : Bool :=
  s.toList.tails.any (fun t => pat.toList.isPrefixOf t)

/-- `any(kw in title_lower for kw in keywords)`. -/
def anyKeyword (titleLower : String) (kws : List String) : Bool :=
  kws.any (fun kw => strContains titleLower kw)

/-- Title keywords of rule 5 (`task_title_keyword`). -/
def taskKeywords : List String :=
  ["install", "configure", "setup", "create", "how to", "guide",
   "step", "tutorial", "walkthrough", "procedure"]

/-- Title keywords of rule 9 (`reference_title_keyword`). -/
def refKeywords : List String :=
  ["api", "parameter", "specification", "reference", "command",
   "syntax", "function", "method", "class", "attribute", "property"]

/-- Title keywords of rule 16 (`concept_title_keyword`). -/
def conceptKeywords : List String :=
  ["what is", "overview", "introduction", "understanding",
   "concept", "about", "explanation", "theory", "background"]

/-- The accumulated (pre-normalization) scores of
`RuleBasedClassifier.classify`: each of the 19 fixed rules adds its
increment to its category's entry when its predicate matches. -/
def ruleRawScores (chunk : ContentChunk) (f : Features) : Scores :=
  let titleLower := pyLower chunk.title
  let taskScore : Rat :=
    (if f.has_numbered_list && f.imperative_verbs ≥ 5 then 1/2 else 0) +
    (if f.has_numbered_list && f.action_verbs ≥ 5 then 2/5 else 0) +
    (if f.has_bullet_list && f.action_verbs ≥ 4 then 3/10 else 0) +
    (if f.imperative_verbs ≥ 3 then 1/4 else 0) +
    (if anyKeyword titleLower taskKeywords then 1/5 else 0) +
    (if f.action_verbs ≥ 7 then 3/20 else 0)
  let refScore : Rat :=
    (if f.table_count ≥ 2 then 1/2 else 0) +
    (if f.has_table && f.word_count < 200 then 2/5 else 0) +
    (if anyKeyword titleLower refKeywords then 7/20 else 0) +
    (if f.code_blocks ≥ 3 && f.word_count < 300 then 3/10 else 0) +
    (if f.has_table then 1/5 else 0) +
    (if f.named_entities ≥ 5 then 3/20 else 0)
  let conceptScore : Rat :=
    (if f.has_definition && f.is_statements ≥ 4 then 1/2 else 0) +
    (if f.has_definition then 7/20 else 0) +
    (if f.is_statements ≥ 3 then 3/10 else 0) +
    (if anyKeyword titleLower conceptKeywords then 3/10 else 0) +
    (if f.action_verbs < 2 && f.noun_count > f.verb_count then 1/4 else 0) +
    (if 3 ≤ f.named_entities && f.named_entities ≤ 5 then 3/20 else 0) +
    (if !f.has_numbered_list && !f.has_bullet_list && !f.has_table then 1/10 else 0)
  ⟨taskScore, conceptScore, refScore⟩

/-- A classification result `{type, confidence, scores}` (the
`matched_rules` explainability list is not consulted by any verified
property and is omitted from the model). -/
structure ClassificationResult where
  ctype : Category
  confidence : Rat
  scores : Scores
deriving DecidableEq, Repr

/-- `RuleBasedClassifier.classify`: accumulate rule scores, normalize by
their sum (a zero total deterministically falls back to
`{"Task": 0.0, "Concept": 1.0, "Reference": 0.0}`), then pick the argmax. -/
def ruleClassify (chunk : ContentChunk) (f : Features) : ClassificationResult :=
  let raw := ruleRawScores chunk f
  let total := raw.total
  let scores := if total > 0 then raw.normalize total else ⟨0, 1, 0⟩
  let best := argmaxCanonical scores
  ⟨best, scores.get best, scores⟩

/-- `FusionEngine.__init__` weight validation: construction raises unless
`abs(tier1_weight + tier2_weight - 1.0) <= 0.01`.  `true` means the
constructor succeeds. -/
def fusionInitOk (w1 w2 : Rat) : Bool :=
  ¬ (|w1 + w2 - 1| > 1/100)

/-- Result of `FusionEngine.fuse`. -/
structure FusionResult where
  ctype : Category
  confidence : Rat
  scores : Scores
  needs_review : Bool
deriving DecidableEq, Repr

/-- The pre-normalization weighted average
`fused_score[c] = score1[c]*w1 + score2[c]*w2` of `FusionEngine.fuse`. -/
def fusedRaw (w1 w2 : Rat) (s1 s2 : Scores) : Scores :=
  ⟨s1.task * w1 + s2.task * w2,
   s1.concept * w1 + s2.concept * w2,
   s1.reference * w1 + s2.reference * w2⟩

/-- `FusionEngine.fuse`: weighted average of the two score maps over the
canonical categories, renormalized only when the total is positive,
argmax selection, and the escalation flag
`needs_review = confidence < threshold`. -/
def fuse (w1 w2 threshold : Rat) (s1 s2 : Scores) : FusionResult :=
  let fused := fusedRaw w1 w2 s1 s2
  let total := fused.total
  let fused := if total > 0 then fused.normalize total else fused
  let best := argmaxCanonical fused
  let conf := fused.get best
  ⟨best, conf, fused, decide (conf < threshold)⟩

/-- The position of a category in the canonical declaration order
Task, Concept, Reference (used to state the fixed tie-break). -/
def catIdx : Category → Nat
  | .task => 0
  | .concept => 1
  | .reference => 2

/-! ## Tier 2 model classifier (`llm_classifier.py`)

The external service returns raw text; `_parse_response` extracts the
first-`{`-to-last-`}` span and runs `json.loads` on it — so a successful
load is always a JSON object.  The service call and the extraction/load
are external effects and are modelled as an oracle input: `SvcOutcome.fail`
is a raised service call, `SvcOutcome.resp none` a response with no
loadable JSON object, and `SvcOutcome.resp (some fields)` a loaded object. -/

/-- A JSON value (`json.loads` output). -/
inductive JVal where
  | num (q : Rat)
  | str (s : String)
  | boolean (b : Bool)
  | null
  | arr (xs : List JVal)
  | obj (fields : List (String × JVal))

/-- Dict lookup on a loaded JSON object (keys are unique after
`json.loads`). -/
def jlookup (fields : List (String × JVal)) (k : String) : Option JVal :=
  fields.lookup k

/-- Outcome of the `ai_service.generate` call as observed by the
classifier. -/
inductive SvcOutcome where
  | fail
  | resp (json : Option (List (String × JVal)))

/-- Python `str.capitalize()`: first character upper-cased, the rest
lower-cased. -/
def pyCapitalize (s : String) : String :=
  match s.toList with
  | [] => ""
  | c :: rest => String.mk (c.toUpper :: rest.map Char.toLower)

/-- The result dict of `LLMClassifier.classify`.  After `_parse_response`
the `type` value is always canonical, hence a `Category`; the `scores`
and `reasoning` values are kept exactly as parsed (the source never
validates or renormalizes them). -/
structure LLMResult where
  ctype : Category
  confidence : Rat
  scores : JVal
  reasoning : JVal

/-- The `{"Task": 0.33, "Concept": 0.34, "Reference": 0.33}` map used by
both the disabled-path default and the exception fallback. -/
def evenSplitScores : JVal :=
  .obj [("Task", .num (33/100)), ("Concept", .num (34/100)), ("Reference", .num (33/100))]

/-- The low-confidence fallback result built in `classify`'s `except`
handler (`reasoning` carries the error text). -/
def llmFallback (reason : String) : LLMResult :=
  ⟨.concept, 3/10, evenSplitScores, .str reason⟩

/-- `float(x)` on a JSON value; numeric-string coercion (`float("0.5")`)
is not modelled — any non-number is a conversion failure, which the
caller's `except` turns into the fallback. -/
def jToFloat : JVal → Option Rat
  | .num q => some q
  | _ => none

/-- `LLMClassifier._parse_response` on a loaded response: check the four
required keys, `capitalize()` the type, coerce a non-canonical type to
`Concept` (keeping the rest of the parsed dict), and clamp the confidence
to `[0, 1]`.  `Except.error` is a raised exception. -/
def parseLLMResponse : Option (List (String × JVal)) → Except String LLMResult
  | none => .error "No JSON found in response"
  | some fields =>
    if (jlookup fields "type").isNone then .error "Missing field: type"
    else if (jlookup fields "confidence").isNone then .error "Missing field: confidence"
    else if (jlookup fields "scores").isNone then .error "Missing field: scores"
    else if (jlookup fields "reasoning").isNone then .error "Missing field: reasoning"
    else
      match jlookup fields "type" with
      | some (.str t) =>
        let t := pyCapitalize t
        let cat : Category :=
          if t = "Task" then .task
          else if t = "Concept" then .concept
          else if t = "Reference" then .reference
          else .concept
        match jToFloat ((jlookup fields "confidence").getD .null) with
        | some q =>
          .ok ⟨cat, max 0 (min 1 q),
               (jlookup fields "scores").getD .null,
               (jlookup fields "reasoning").getD .null⟩
        | none => .error "could not convert confidence to float"
      | _ => .error "type value has no capitalize method"

/-- `LLMClassifier.classify`: the disabled path returns the fixed
low-confidence default; otherwise one service call, with every raised
error (call failure or parse failure) converted to the fallback inside
the `except` handler. -/
def llmClassify (useAI : Bool) (svc : SvcOutcome) : LLMResult :=
  if !useAI then
    ⟨.concept, 3/10, evenSplitScores, .str "LLM disabled, returning low confidence default"⟩
  else
    match svc with
    | .fail => llmFallback "service call raised"
    | .resp j =>
      match parseLLMResponse j with
      | .ok r => r
      | .error e => llmFallback ("Error: " ++ e)

/-! ## Tier 3 escalation queue (`active_learning.py`)

The pending queue and training corpus are JSON files behind
`_load_pending_queue` / file appends; the state is modelled explicitly.
Wall-clock timestamps (`timestamp`, `reviewed_at`) are not modelled. -/

/-- One entry of the pending-review queue (`review_item`). -/
structure ReviewItem where
  chunk_id : String
  title : String
  content : String
  tier1_type : String
  tier1_confidence : Rat
  tier2_type : String
  tier2_confidence : Rat
  status : String
  human_label : Option String
deriving DecidableEq, Repr

/-- One line of the append-only training corpus
(`_add_to_training_set`). -/
structure TrainingExample where
  title : String
  content : String
  label : String
  tier1_prediction : String
  tier2_prediction : String
  tier1_confidence : Rat
  tier2_confidence : Rat
deriving DecidableEq, Repr

/-- The manager's persistent state: the pending-review queue and the
training corpus. -/
structure QueueState where
  pending : List ReviewItem
  training : List TrainingExample
deriving DecidableEq, Repr

/-- How one `submit_human_label` call ends: a raised `ValueError` for a
non-canonical label, a plain `return` (after only logging) when no item
matches the id, or a normal completion. -/
inductive SubmitOutcome where
  | raisedInvalidLabel
  | returnedNotFound
  | completed
deriving DecidableEq, Repr

/-- The canonical label set accepted by `submit_human_label`. -/
def canonicalLabels : List String := ["Task", "Concept", "Reference"]

/-- The training example derived from a reviewed item
(`_add_to_training_set`). -/
def mkTrainingExample (item : ReviewItem) : TrainingExample :=
  ⟨item.title, item.content, item.human_label.getD "",
   item.tier1_type, item.tier2_type, item.tier1_confidence, item.tier2_confidence⟩

/-- The queue scan of `submit_human_label`: update the first item whose
`chunk_id` matches (regardless of its current status), returning the
updated queue and the updated item. -/
def updateFirstMatch (chunkId label : String) :
    List ReviewItem → Option (List ReviewItem × ReviewItem)
  | [] => none
  | item :: rest =>
    if item.chunk_id = chunkId then
      let item' := { item with human_label := some label, status := "reviewed" }
      some (item' :: rest, item')
    else
      match updateFirstMatch chunkId label rest with
      | some (rest', hit) => some (item :: rest', hit)
      | none => none

/-- `ActiveLearningManager.submit_human_label`: raise on a non-canonical
label; otherwise find the first queue item with the given id, mark it
reviewed, append exactly one training example, and save — or log and
return with the state untouched when no item matches. -/
def submitHumanLabel (st : QueueState) (chunkId label : String) :
    SubmitOutcome × QueueState :=
  if ¬ canonicalLabels.contains label then (.raisedInvalidLabel, st)
  else
    match updateFirstMatch chunkId label st.pending with
    | some (pending', hit) =>
      (.completed, ⟨pending', st.training ++ [mkTrainingExample hit]⟩)
    | none => (.returnedNotFound, st)

/-! ## XML document model

`lxml.etree` parse trees: an element has a tag, an attribute list, text
and children.  A raw document string is modelled by its parse outcome
(`Doc.bad` = `XMLSyntaxError`); the `<?xml ...?>` declaration prefix of
the raw string is kept as a flag.  Tail text and serializer whitespace
are not modelled; equality of `XDoc`s corresponds to string equality of
documents in serializer normal form. -/

/-- An `lxml` element node. -/
inductive XElem where
  | mk (tag : String) (attrs : List (String × String)) (text : Option String)
       (children : List XElem)

/-- `elem.tag`. -/
def XElem.tag : XElem → String
  | .mk t _ _ _ => t

/-- The attribute list of an element. -/
def XElem.attrs : XElem → List (String × String)
  | .mk _ a _ _ => a

/-- `elem.text` (`none` models Python `None`). -/
def XElem.text : XElem → Option String
  | .mk _ _ x _ => x

/-- The child elements, in document order. -/
def XElem.children : XElem → List XElem
  | .mk _ _ _ c => c

mutual

/-- Boolean structural equality on elements. -/
def XElem.beq : XElem → XElem → Bool
  | .mk t1 a1 x1 c1, .mk t2 a2 x2 c2 =>
    t1 == t2 && a1 == a2 && x1 == x2 && XElem.beqList c1 c2

/-- Boolean structural equality on child lists. -/
def XElem.beqList : List XElem → List XElem → Bool
  | [], [] => true
  | e :: es, f :: fs => XElem.beq e f && XElem.beqList es fs
  | _, _ => false

end

mutual

theorem XElem.beq_iff : ∀ a b : XElem, XElem.beq a b = true ↔ a = b
  | .mk t1 a1 x1 c1, .mk t2 a2 x2 c2 => by
    simp only [XElem.beq, Bool.and_eq_true, beq_iff_eq, XElem.beqList_iff c1 c2,
      XElem.mk.injEq]
    tauto

theorem XElem.beqList_iff : ∀ as bs : List XElem, XElem.beqList as bs = true ↔ as = bs
  | [], [] => by simp [XElem.beqList]
  | [], _ :: _ => by simp [XElem.beqList]
  | _ :: _, [] => by simp [XElem.beqList]
  | e :: es, f :: fs => by
    simp only [XElem.beqList, Bool.and_eq_true, XElem.beq_iff e f,
      XElem.beqList_iff es fs, List.cons.injEq]

end

instance : DecidableEq XElem :=
  fun a b => decidable_of_iff _ (XElem.beq_iff a b)

/-- `elem.get(name)`. -/
def XElem.getAttr (e : XElem) (name : String) : Option String :=
  e.attrs.lookup name

/-- `elem.set(name, value)` on an existing attribute. -/
def XElem.setAttr (e : XElem) (name v : String) : XElem :=
  .mk e.tag (e.attrs.map (fun kv => if kv.1 = name then (kv.1, v) else kv)) e.text e.children

/-- `tree.find(tag)`: first direct child with the given tag. -/
def XElem.findChild (e : XElem) (tag : String) : Option XElem :=
  e.children.find? (fun c => c.tag = tag)

mutual

/-- `tree.iter()` / absolute `//*`: all elements in document order
(preorder, the context node included). -/
def XElem.preorder : XElem → List XElem
  | .mk t a x cs => .mk t a x cs :: XElem.preorderList cs

/-- Document-order traversal of a forest. -/
def XElem.preorderList : List XElem → List XElem
  | [] => []
  | c :: cs => XElem.preorder c ++ XElem.preorderList cs

end

/-- A parsed document: XML declaration flag of the raw string plus the
root element. -/
structure XDoc where
  decl : Bool
  root : XElem
deriving DecidableEq

/-- A raw document string, by parse outcome: `bad decl` is a string
`etree.fromstring` rejects (its XML-declaration prefix flag kept, the
rest abstract). -/
inductive Doc where
  | bad (decl : Bool)
  | ok (d : XDoc)
deriving DecidableEq

/-! ## Builtin structural validator (`dita_ot_validator.py`, `_validate_builtin`) -/

/-- A validation error / warning dict.  Fields absent from a given error
dict are `none` (the `line` of a syntax error is not modelled). -/
structure VError where
  etype : String
  message : String
  element : Option String := none
  id : Option String := none
  expected_order : Option (List String) := none
deriving DecidableEq, Repr

/-- A validation outcome `{is_valid, errors, warnings}` (the constant
`validator` name field is not modelled). -/
structure ValidationOutcome where
  is_valid : Bool
  errors : List VError
  warnings : List VError
deriving DecidableEq, Repr

/-- `tag.rstrip('?')`. -/
def rstripQmark (s : String) : String :=
  String.mk ((s.toList.reverse.dropWhile (fun c => c = '?')).reverse)

/-- `_check_element_order`: walk the expected tag list, tracking the
index of each tag's first occurrence among the direct children; an error
is recorded whenever that first occurrence precedes the previous tag's
(`last_index` starts at `-1`). -/
def checkElementOrder (parent : XElem) (expectedOrder : List String) : List VError :=
  (expectedOrder.foldl
    (fun (acc : List VError × Int) tag =>
      let tagClean := rstripQmark tag
      match parent.children.findIdx? (fun c => c.tag = tagClean) with
      | some firstPos =>
        let errs :=
          if (firstPos : Int) < acc.2 then
            acc.1 ++ [{ etype := "ElementOrderError",
                        message := "元素 <" ++ tagClean ++ "> 的顺序不正确",
                        element := some tagClean,
                        expected_order := some expectedOrder }]
          else acc.1
        (errs, (firstPos : Int))
      | none => acc)
    ([], (-1 : Int))).1

/-- A `MissingRequiredElement` error. -/
def missingElem (msg elem : String) : VError :=
  { etype := "MissingRequiredElement", message := msg, element := some elem }

/-- `_validate_task_structure`. -/
def validateTaskStructure (tree : XElem) : List VError :=
  let titleErrs :=
    if (tree.findChild "title").isNone then
      [missingElem "<task> 必须包含 <title> 元素" "title"]
    else []
  let bodyErrs :=
    match tree.findChild "taskbody" with
    | none => [missingElem "<task> 必须包含 <taskbody> 元素" "taskbody"]
    | some taskbody =>
      let orderErrs := checkElementOrder taskbody
        ["prereq", "context", "steps", "result", "example", "postreq"]
      let stepsErrs :=
        match taskbody.findChild "steps" with
        | none => [missingElem "<taskbody> 必须包含 <steps> 元素" "steps"]
        | some steps =>
          let stepList := steps.children.filter (fun c => c.tag = "step")
          let emptyErr :=
            if stepList.isEmpty then
              [{ etype := "EmptyElement",
                 message := "<steps> 必须至少包含一个 <step>",
                 element := some "steps" : VError }]
            else []
          let cmdErrs := stepList.enum.filterMap (fun p =>
            if (p.2.findChild "cmd").isNone then
              some (missingElem
                ("第 " ++ toString (p.1 + 1) ++ " 个 <step> 缺少必需的 <cmd> 元素")
                ("step[" ++ toString (p.1 + 1) ++ "]/cmd"))
            else none)
          emptyErr ++ cmdErrs
      orderErrs ++ stepsErrs
  let rootOrderErrs := checkElementOrder tree
    ["title", "shortdesc", "prolog", "taskbody", "related-links"]
  titleErrs ++ bodyErrs ++ rootOrderErrs

/-- `_validate_concept_structure`. -/
def validateConceptStructure (tree : XElem) : List VError :=
  (if (tree.findChild "title").isNone then
    [missingElem "<concept> 必须包含 <title> 元素" "title"]
  else []) ++
  (if (tree.findChild "conbody").isNone then
    [missingElem "<concept> 必须包含 <conbody> 元素" "conbody"]
  else []) ++
  checkElementOrder tree ["title", "shortdesc", "prolog", "conbody", "related-links"]

/-- `_validate_reference_structure`. -/
def validateReferenceStructure (tree : XElem) : List VError :=
  (if (tree.findChild "title").isNone then
    [missingElem "<reference> 必须包含 <title> 元素" "title"]
  else []) ++
  (if (tree.findChild "refbody").isNone then
    [missingElem "<reference> 必须包含 <refbody> 元素" "refbody"]
  else []) ++
  checkElementOrder tree ["title", "shortdesc", "prolog", "refbody", "related-links"]

/-- The id-format pattern `^[a-zA-Z][a-zA-Z0-9_\-\.]*$`. -/
def validIdFormat (s : String) : Bool :=
  match s.toList with
  | [] => false
  | c :: rest =>
    c.isAlpha && rest.all (fun d => d.isAlpha || d.isDigit || d = '_' || d = '-' || d = '.')

/-- Python falsiness of `elem.text` (`None` or the empty string). -/
def textEmpty : Option String → Bool
  | none => true
  | some s => s = ""

/-- Elements allowed to be empty by `_validate_common_rules`. -/
def emptyAllowedTags : List String := ["shortdesc", "note", "info", "stepresult"]

/-- `_validate_common_rules`: id uniqueness (one `DuplicateID` error per
repeated occurrence, document order), id format, and `EmptyElement`
warnings. -/
def validateCommonRules (tree : XElem) : List VError × List VError :=
  let elems := tree.preorder
  let idVals := elems.filterMap (fun e => e.getAttr "id")
  let dupErrs :=
    (idVals.foldl
      (fun (acc : List VError × List String) v =>
        if v ∈ acc.2 then
          (acc.1 ++ [{ etype := "DuplicateID",
                       message := "ID \"" ++ v ++ "\" 重复使用",
                       id := some v }], acc.2)
        else (acc.1, acc.2 ++ [v]))
      ([], [])).1
  let fmtErrs := idVals.filterMap (fun v =>
    if validIdFormat v then none
    else some { etype := "InvalidIDFormat",
                message := "ID \"" ++ v ++ "\" 格式无效（必须以字母开头，只能包含字母、数字、-_. ）",
                id := some v })
  let emptyWarns := elems.filterMap (fun e =>
    if e.tag ∈ emptyAllowedTags then none
    else if textEmpty e.text && e.children.isEmpty then
      some { etype := "EmptyElement",
             message := "元素 <" ++ e.tag ++ "> 为空",
             element := some e.tag }
    else none)
  (dupErrs ++ fmtErrs, emptyWarns)

/-- The single error reported for an `etree.XMLSyntaxError` (the Python
message interpolates `str(e)`; the text is irrelevant to every verified
property). -/
def xmlSyntaxError : VError :=
  { etype := "XMLSyntaxError", message := "not well-formed" }

/-- The content-type detection of `_validate_builtin`: a caller-supplied
type is taken as-is; otherwise the type is derived from a canonical root
tag, and a non-canonical root yields `InvalidRootElement` with type
`Unknown`. -/
def detectContentType (root : XElem) (contentType : Option String) :
    List VError × String :=
  match contentType with
  | some s => ([], s)
  | none =>
    if root.tag = "task" ∨ root.tag = "concept" ∨ root.tag = "reference" then
      ([], pyCapitalize root.tag)
    else
      ([{ etype := "InvalidRootElement",
          message := "根元素必须是task/concept/reference之一，实际为: " ++ root.tag }],
       "Unknown")

/-- The type-specific validation pass dispatched on the detected type or
the root tag. -/
def typeSpecificErrors (root : XElem) (ct : String) : List VError :=
  if ct = "Task" ∨ root.tag = "task" then validateTaskStructure root
  else if ct = "Concept" ∨ root.tag = "concept" then validateConceptStructure root
  else if ct = "Reference" ∨ root.tag = "reference" then validateReferenceStructure root
  else []

/-- `_validate_builtin` (the `validate` entry point with
`use_dita_ot=False`): a parse failure short-circuits with the single
syntax error; otherwise content-type detection, the type-specific pass
and the common pass all contribute to one error list, and
`is_valid = (errors == [])`. -/
def validateBuiltin (doc : Doc) (contentType : Option String) : ValidationOutcome :=
  match doc with
  | .bad _ => { is_valid := false, errors := [xmlSyntaxError], warnings := [] }
  | .ok d =>
    let detect := detectContentType d.root contentType
    let typeErrs := typeSpecificErrors d.root detect.2
    let common := validateCommonRules d.root
    let errors := detect.1 ++ typeErrs ++ common.1
    { is_valid := errors.isEmpty, errors := errors, warnings := common.2 }

/-! ## Repair engine (`intelligent_repairer.py`)

The deterministic tier manipulates the document string (id replacement)
and its parse tree (element removal, id renaming); both are modelled on
the parse tree.  Caveats, each marked at its definition: the raw-string
replacement `xml.replace('id="..."', ...)` is modelled as attribute
replacement (occurrences of the pattern inside text content or inside a
longer attribute name are not modelled), and the rule fixes on an
unparseable document act on the raw string, which the model keeps
abstract. -/

/-- One applied fix `{type, action}` (the LLM fix also carries the
`errors` message list). -/
structure RepairAction where
  rtype : String
  action : String
  errors : List String := []
deriving DecidableEq, Repr

/-- `_classify_errors` simple kinds. -/
def simpleErrorTypes : List String :=
  ["InvalidIDFormat", "MissingDeclaration", "EmptyElement", "DuplicateID"]

/-- An error the deterministic tier claims to handle. -/
def isSimpleError (e : VError) : Bool :=
  simpleErrorTypes.contains e.etype

/-- Characters kept by `re.sub(r'[^a-z0-9_\-\.]', '_', ...)`. -/
def idCharOk (c : Char) : Bool :=
  ('a' ≤ c && c ≤ 'z') || c.isDigit || c = '_' || c = '-' || c = '.'

/-- Python `str.strip('_')`. -/
def stripUnderscores (l : List Char) : List Char :=
  ((l.dropWhile (fun c => c = '_')).reverse.dropWhile (fun c => c = '_')).reverse

/-- `_fix_id_format`: lower-case, replace disallowed characters by `_`,
strip outer underscores, prefix `id_` when the first character is not a
letter, and fall back to `unnamed` for an empty result. -/
def fixIdFormat (invalid : String) : String :=
  let mapped := (pyLower invalid).toList.map (fun c => if idCharOk c then c else '_')
  let stripped := stripUnderscores mapped
  let prefixed :=
    match stripped with
    | [] => ([] : List Char)
    | c :: _ => if ¬ c.isAlpha then 'i' :: 'd' :: '_' :: stripped else stripped
  if prefixed.isEmpty then "unnamed" else String.mk prefixed

mutual

/-- `fixed_xml.replace('id="<invalid>"', 'id="<valid>"')`, modelled as
replacement of every `id` attribute whose value equals `invalid`. -/
def XElem.replaceIdAttr (invalid valid : String) : XElem → XElem
  | .mk t a x cs =>
    .mk t (a.map (fun kv => if kv.1 = "id" ∧ kv.2 = invalid then ("id", valid) else kv))
      x (XElem.replaceIdAttrList invalid valid cs)

/-- Forest version of `XElem.replaceIdAttr`. -/
def XElem.replaceIdAttrList (invalid valid : String) : List XElem → List XElem
  | [] => []
  | c :: cs => XElem.replaceIdAttr invalid valid c :: XElem.replaceIdAttrList invalid valid cs

end

mutual

/-- The `EmptyElement` fix: remove every descendant (`.//name`, the root
excluded) with the given tag, no text and no children.  The Python loop
checks each candidate before any of its descendants is removed, so the
emptiness test refers to the element's original children. -/
def XElem.removeEmptyNamed (name : String) : XElem → XElem
  | .mk t a x cs => .mk t a x (XElem.removeEmptyNamedList name cs)

/-- Forest version of `XElem.removeEmptyNamed`: drop the matching empty
elements of this generation (their emptiness judged on their original
children), recurse into the survivors. -/
def XElem.removeEmptyNamedList (name : String) : List XElem → List XElem
  | [] => []
  | c :: cs =>
    if c.tag = name ∧ textEmpty c.text ∧ c.children.isEmpty then
      XElem.removeEmptyNamedList name cs
    else
      XElem.removeEmptyNamed name c :: XElem.removeEmptyNamedList name cs

end

mutual

/-- `_fix_duplicate_ids` element walk: count the elements whose `id`
equals the duplicate (document order); occurrence `n ≥ 2` is renamed to
`<id>_<n>`.  The counter is threaded through the traversal. -/
def XElem.renameDup (dup : String) : XElem → Nat → XElem × Nat
  | .mk t a x cs, n =>
    let isMatch := a.lookup "id" = some dup
    let n1 := if isMatch then n + 1 else n
    let a1 :=
      if isMatch ∧ n1 ≥ 2 then
        a.map (fun kv => if kv.1 = "id" then (kv.1, dup ++ "_" ++ toString n1) else kv)
      else a
    let r := XElem.renameDupList dup cs n1
    (.mk t a1 x r.1, r.2)

/-- Forest version of `XElem.renameDup`. -/
def XElem.renameDupList (dup : String) : List XElem → Nat → List XElem × Nat
  | [], n => ([], n)
  | c :: cs, n =>
    let r1 := XElem.renameDup dup c n
    let r2 := XElem.renameDupList dup cs r1.2
    (r1.1 :: r2.1, r2.2)

end

/-- One iteration of the `_apply_rule_fixes` error loop on a parsed
document.  Re-serialization inside the `EmptyElement` and `DuplicateID`
branches always re-adds the XML declaration. -/
def applyOneRuleFix (acc : XDoc × List RepairAction) (e : VError) : XDoc × List RepairAction :=
  let doc := acc.1
  let fixes := acc.2
  if e.etype = "InvalidIDFormat" then
    match e.id with
    | some invalid =>
      if invalid = "" then acc
      else
        let valid := fixIdFormat invalid
        (⟨doc.decl, XElem.replaceIdAttr invalid valid doc.root⟩,
         fixes ++ [{ rtype := "InvalidIDFormat",
                     action := "修复ID: " ++ invalid ++ " → " ++ valid }])
    | none => acc
  else if e.etype = "MissingDeclaration" then
    if ¬ doc.decl then
      (⟨true, doc.root⟩, fixes ++ [{ rtype := "MissingDeclaration", action := "添加XML声明" }])
    else acc
  else if e.etype = "EmptyElement" then
    match e.element with
    | some name =>
      if name = "" then acc
      else
        (⟨true, doc.root.removeEmptyNamed name⟩,
         fixes ++ [{ rtype := "EmptyElement", action := "移除空元素: " ++ name }])
    | none => acc
  else if e.etype = "DuplicateID" then
    match e.id with
    | some dup =>
      if dup = "" then acc
      else
        (⟨true, (XElem.renameDup dup doc.root 0).1⟩,
         fixes ++ [{ rtype := "DuplicateID", action := "修复重复ID: " ++ dup }])
    | none => acc
  else acc

/-- `_apply_rule_fixes` on a parsed document. -/
def applyRuleFixes (doc : XDoc) (errors : List VError) : XDoc × List RepairAction :=
  errors.foldl applyOneRuleFix (doc, [])

/-- The deterministic repair tier as `repair` invokes it: only the
simple error kinds reach `_apply_rule_fixes`. -/
def deterministicTier (doc : XDoc) (errors : List VError) : XDoc × List RepairAction :=
  applyRuleFixes doc (errors.filter (fun e => isSimpleError e))

/-- `_apply_rule_fixes` branch outcomes on an unparseable document: the
raw-string id replacement leaves the model document abstractly unchanged
but still records its action; `MissingDeclaration` prepends the
declaration to the raw string; the tree-based branches hit the internal
`except` handlers (`EmptyElement` records nothing, `DuplicateID` still
records its action). -/
def applyOneRuleFixBad (acc : Bool × List RepairAction) (e : VError) : Bool × List RepairAction :=
  if e.etype = "InvalidIDFormat" then
    match e.id with
    | some invalid =>
      if invalid = "" then acc
      else (acc.1, acc.2 ++ [{ rtype := "InvalidIDFormat",
                               action := "修复ID: " ++ invalid ++ " → " ++ fixIdFormat invalid }])
    | none => acc
  else if e.etype = "MissingDeclaration" then
    if ¬ acc.1 then (true, acc.2 ++ [{ rtype := "MissingDeclaration", action := "添加XML声明" }])
    else acc
  else if e.etype = "DuplicateID" then
    match e.id with
    | some dup =>
      if dup = "" then acc
      else (acc.1, acc.2 ++ [{ rtype := "DuplicateID", action := "修复重复ID: " ++ dup }])
    | none => acc
  else acc

/-- `_apply_rule_fixes` lifted to a raw document by parse outcome. -/
def ruleFixDoc (doc : Doc) (errors : List VError) : Doc × List RepairAction :=
  match doc with
  | .ok d =>
    let r := applyRuleFixes d errors
    (.ok r.1, r.2)
  | .bad b =>
    let r := errors.foldl applyOneRuleFixBad (b, [])
    (.bad r.1, r.2)

/-- Outcome of the one LLM repair call: `none` = `ai_service.generate`
raised; `some none` = response with no well-formed XML after markdown
stripping; `some (some d)` = extracted document `d`. -/
abbrev LLMRepairOutcome := Option (Option XDoc)

/-- `_apply_llm_fixes`: a raised call or an unparseable response leaves
the document unchanged with no action; a well-formed response is
accepted only when it differs from the current document, and then one
`LLMRepair` action covering all the batched errors is recorded. -/
def applyLlmFixes (llm : LLMRepairOutcome) (doc : Doc) (errors : List VError) :
    Doc × List RepairAction :=
  match llm with
  | none => (doc, [])
  | some none => (doc, [])
  | some (some d) =>
    if Doc.ok d ≠ doc then
      (Doc.ok d,
       [{ rtype := "LLMRepair",
          action := "LLM修复了 " ++ toString errors.length ++ " 个错误",
          errors := errors.map (fun e => e.message) }])
    else (doc, [])

/-- `IntelligentRepairer.repair` result dict. -/
structure RepairResult where
  success : Bool
  repaired_xml : Doc
  applied_fixes : List RepairAction
  remaining_errors : List VError
deriving DecidableEq

/-- `IntelligentRepairer.repair`: split the errors into simple/complex,
run the deterministic tier on the simple ones (updating the document and
dropping the simple errors from `remaining_errors` only when it applied
something), then the LLM tier on the complex ones (likewise), and report
`success = (remaining_errors == [])` with no re-validation. -/
def repair (useAI : Bool) (llm : LLMRepairOutcome) (doc : Doc) (errors : List VError) :
    RepairResult :=
  let simple := errors.filter (fun e => isSimpleError e)
  let complex := errors.filter (fun e => ¬ isSimpleError e)
  let step1 := if simple.isEmpty then (doc, []) else ruleFixDoc doc simple
  let doc1 := if step1.2.isEmpty then doc else step1.1
  let remaining1 :=
    if step1.2.isEmpty then errors else errors.filter (fun e => decide (e ∉ simple))
  let step2 :=
    if ¬ complex.isEmpty ∧ useAI then applyLlmFixes llm doc1 complex else (doc1, [])
  let doc2 := if step2.2.isEmpty then doc1 else step2.1
  let remaining2 :=
    if step2.2.isEmpty then remaining1 else remaining1.filter (fun e => decide (e ∉ complex))
  { success := remaining2.isEmpty,
    repaired_xml := doc2,
    applied_fixes := step1.2 ++ step2.2,
    remaining_errors := remaining2 }

/-! ## Convergence loop (`validation_loop.py`)

`ValidationLoop.run` with the builtin validator; the per-iteration LLM
repair call is an oracle indexed by the iteration number. -/

/-- The LLM responses the repairer would see, per iteration. -/
abbrev RepairOracle := Nat → LLMRepairOutcome

/-- The loop's mutable state: `current_xml`, the iteration counter and
the two history lists. -/
structure LoopState where
  current : Doc
  iteration : Nat
  vhist : List (Nat × ValidationOutcome)
  rhist : List (Nat × RepairResult)
deriving DecidableEq

/-- `ValidationLoop.run` result dict. -/
structure LoopResult where
  success : Bool
  final_xml : Doc
  iterations : Nat
  validation_history : List (Nat × ValidationOutcome)
  repair_history : List (Nat × RepairResult)
  final_validation : Option ValidationOutcome
deriving DecidableEq

/-- The `while iteration < max_iterations` loop body: validate, record,
break on success; repair unless this is the last permitted iteration;
keep the repaired document when the repairer claimed success or applied
fixes, otherwise break.  The fuel argument only bounds the recursion
(`runLoop` supplies enough for the loop condition alone to decide
termination). -/
def loopGo (maxIter : Nat) (useAI : Bool) (oracle : RepairOracle) (ct : Option String) :
    Nat → LoopState → LoopState × Bool × Option ValidationOutcome
  | 0, st => (st, false, none)
  | fuel + 1, st =>
    if st.iteration < maxIter then
      let it := st.iteration + 1
      let v := validateBuiltin st.current ct
      let vh := st.vhist ++ [(it, v)]
      if v.is_valid then
        (⟨st.current, it, vh, st.rhist⟩, true, some v)
      else if it < maxIter then
        let r := repair useAI (oracle it) st.current v.errors
        let rh := st.rhist ++ [(it, r)]
        if r.success ∨ ¬ r.applied_fixes.isEmpty then
          loopGo maxIter useAI oracle ct fuel ⟨r.repaired_xml, it, vh, rh⟩
        else
          (⟨st.current, it, vh, rh⟩, false, none)
      else
        (⟨st.current, it, vh, st.rhist⟩, false, none)
    else (st, false, none)

/-- `ValidationLoop.run`: run the loop from the input document, then set
the final fields; a non-success outcome triggers one more (out-of-loop)
validation of the final document. -/
def runLoop (maxIter : Nat) (useAI : Bool) (oracle : RepairOracle) (doc : Doc)
    (ct : Option String) : LoopResult :=
  let r := loopGo maxIter useAI oracle ct maxIter ⟨doc, 0, [], []⟩
  { success := r.2.1,
    final_xml := r.1.current,
    iterations := r.1.iteration,
    validation_history := r.1.vhist,
    repair_history := r.1.rhist,
    final_validation :=
      if r.2.1 then r.2.2 else some (validateBuiltin r.1.current ct) }

/-! ## Quality reporter (`quality_reporter.py`) -/

/-- A custom-rule finding; only its `severity` is consulted by the
scoring and status logic. -/
structure CustomIssue where
  severity : String
deriving DecidableEq, Repr

/-- One failed custom rule with its findings. -/
structure FailedRule where
  rule : String
  issues : List CustomIssue
deriving DecidableEq, Repr

/-- The custom-checks result dict as the reporter consumes it
(`failed`, `total_issues` and `issues_by_severity` are independent
fields of the incoming dict). -/
structure CustomChecksResult where
  failed : List FailedRule
  total_issues : Nat
  issues_by_severity : List (String × Nat)
deriving DecidableEq, Repr

/-- The loop-result fields the reporter consumes
(`loop_result.get('iterations', 0)` is a Python int). -/
structure LoopSummary where
  success : Bool
  iterations : Int
deriving DecidableEq, Repr

/-- `_calculate_quality_scores` output. -/
structure QualityScores where
  dita_compliance : Rat
  structure_quality : Rat
  content_completeness : Rat
  overall_quality : Rat
deriving DecidableEq, Repr

/-- `severity_weights.get(severity, 0.1)`. -/
def severityWeight (s : String) : Rat :=
  if s = "error" then 1/5
  else if s = "warning" then 1/10
  else if s = "info" then 1/20
  else 1/10

/-- `_calculate_quality_scores`. -/
def calculateQualityScores (v : ValidationOutcome) (c : CustomChecksResult)
    (l : LoopSummary) : QualityScores :=
  let dita := if v.is_valid then 1 else max 0 (1 - (v.errors.length : Rat) * (1/10))
  let structQ := if l.success then 1 - ((l.iterations : Rat) - 1) * (1/10) else 1/2
  let completeness :=
    if c.total_issues = 0 then 1
    else
      let deduction := (c.issues_by_severity.map (fun p => (p.2 : Rat) * severityWeight p.1)).sum
      max 0 (1 - deduction)
  ⟨dita, structQ, completeness, dita * (2/5) + structQ * (3/10) + completeness * (3/10)⟩

/-- The report's `overall_status` values. -/
inductive ReportStatus where
  | passed
  | passed_with_warnings
  | failed
deriving DecidableEq, Repr

/-- `issues_by_severity.get(key, 0)`. -/
def lookupCount (m : List (String × Nat)) (k : String) : Nat :=
  (m.lookup k).getD 0

/-- `_determine_overall_status`: `failed` on a failed validation or any
error-severity custom finding; else `passed_with_warnings` when a
validator warning or a counted custom warning remains; else `passed`. -/
def determineOverallStatus (v : ValidationOutcome) (c : CustomChecksResult) : ReportStatus :=
  if ¬ v.is_valid ∨ c.failed.any (fun fr => fr.issues.any (fun i => i.severity = "error")) then
    .failed
  else if v.warnings.length > 0 ∨ lookupCount c.issues_by_severity "warning" > 0 then
    .passed_with_warnings
  else .passed

/-! ## Concrete sample inputs used by individual claims -/

/-- A queue state with one pending item (claim C1). -/
def c1State : QueueState :=
  ⟨[⟨"b1", "Install guide", "Step 1 ...", "Task", 1/2, "Concept", 2/5, "pending", none⟩], []⟩

/-- A well-formed task whose `<steps>` has a non-`<step>` child: its only
validation error is the `EmptyElement` error on `<steps>`, and the
corresponding rule fix removes nothing (claim C2). -/
def c2doc : XDoc :=
  ⟨true, .mk "task" [("id", "t")] none [
    .mk "title" [] (some "T") [],
    .mk "taskbody" [] none [
      .mk "steps" [] none [
        .mk "stepx" [] (some "s") []]]]⟩

/-- A parsed JSON response with a non-canonical `type` and a high
confidence (claim C4). -/
def c4fields : List (String × JVal) :=
  [("type", .str "Procedure"), ("confidence", .num (9/10)),
   ("scores", .num 0), ("reasoning", .str "r")]

/-- A well-formed concept document (claim C5). -/
def c5doc : XDoc :=
  ⟨true, .mk "concept" [("id", "c1")] none [
    .mk "title" [] (some "T") [],
    .mk "conbody" [] none [.mk "p" [] (some "text") []]]⟩

/-- A concept document with ids `a`, `a`, `a_2` in document order: the
duplicate-id fix renames the second `a` to `a_2`, which collides with
the existing `a_2` (claim C8). -/
def c8doc : XDoc :=
  ⟨true, .mk "concept" [("id", "a")] none [
    .mk "title" [] (some "T") [],
    .mk "conbody" [] none [
      .mk "p" [("id", "a")] (some "x") [],
      .mk "p" [("id", "a_2")] (some "y") []]]⟩

/-- First application of the deterministic tier to `c8doc` against its
re-derived (validator-produced) error list (claim C8). -/
def c8fix1 : XDoc × List RepairAction :=
  deterministicTier c8doc (validateBuiltin (.ok c8doc) (some "Concept")).errors

/-- Second application of the deterministic tier to the already-fixed
document, against the re-derived error list of the fixed document
(claim C8). -/
def c8fix2 : XDoc × List RepairAction :=
  deterministicTier c8fix1.1 (validateBuiltin (.ok c8fix1.1) (some "Concept")).errors

/-- A task whose only error is a missing `<cmd>` (a complex error,
claim C10). -/
def c10docA : XDoc :=
  ⟨true, .mk "task" [("id", "t")] none [
    .mk "title" [] (some "T") [],
    .mk "taskbody" [] none [
      .mk "steps" [] none [
        .mk "step" [] none [.mk "info" [] (some "i") []]]]]⟩

/-- The document the model-assisted tier returns for `c10docA`: it
differs (changed title) but still misses the `<cmd>` (claim C10). -/
def c10docB : XDoc :=
  ⟨true, .mk "task" [("id", "t")] none [
    .mk "title" [] (some "T2") [],
    .mk "taskbody" [] none [
      .mk "steps" [] none [
        .mk "step" [] none [.mk "info" [] (some "i") []]]]]⟩

/-- The validator-derived error list of `c10docA` (claim C10). -/
def c10errs : List VError :=
  (validateBuiltin (.ok c10docA) (some "Task")).errors

end DitaCore

namespace DitaCore

/-! ## Theorems -/

/-- Helper: the selected category of an argmax over a score map is a
maximum, and exact ties are broken towards the earlier canonical
category. -/
theorem argmaxCanonical_spec (s : Scores) :
    (∀ c, s.get c ≤ s.get (argmaxCanonical s)) ∧
    (∀ c, s.get c = s.get (argmaxCanonical s) → catIdx (argmaxCanonical s) ≤ catIdx c) := by
  unfold argmaxCanonical
  simp only [Scores.get]
  split_ifs with h1 h2 h3 <;>
    refine ⟨fun c => ?_, fun c => ?_⟩ <;>
    cases c <;>
    simp only [Scores.get, catIdx] <;>
    intros <;>
    first
      | rfl
      | omega
      | linarith

/-- C9 counterexample: with `w1 = 0.3`, `w2 = 0.705` the weights sum to
`1.005 ≠ 1`, yet construction succeeds (the source only rejects a
deviation above the `0.01` tolerance). -/
theorem fusion_init_counterexample :
    fusionInitOk (3/10) (705/1000) = true ∧ (3/10 : Rat) + 705/1000 ≠ 1 := by
  constructor
  · simp only [fusionInitOk, decide_eq_true_eq]
    rw [show (3 : Rat)/10 + 705/1000 - 1 = 1/200 by norm_num,
      abs_of_nonneg (by norm_num : (0 : Rat) ≤ 1/200)]
    norm_num
  · norm_num

/-- C9 (amended): Fusion Engine construction fails exactly when the
weight sum deviates from 1 by more than the 0.01 tolerance; in
particular weights summing exactly to 1 are accepted. -/
theorem fusion_init_tolerance (w1 w2 : Rat) :
    (fusionInitOk w1 w2 = false ↔ |w1 + w2 - 1| > 1/100) ∧
    (w1 + w2 = 1 → fusionInitOk w1 w2 = true) := by
  constructor
  · simp [fusionInitOk]
  · intro h
    simp [fusionInitOk, h]

/-- C9 witness: the default weights `0.3 + 0.7 = 1` are accepted. -/
theorem fusion_init_tolerance_witness :
    (3/10 : Rat) + 7/10 = 1 ∧ fusionInitOk (3/10) (7/10) = true :=
  ⟨by norm_num, (fusion_init_tolerance (3/10) (7/10)).2 (by norm_num)⟩

/-- C6: a zero rule-score total yields the fixed fallback — category
Concept at confidence exactly 1 with score map `(0, 1, 0)` — and a
positive total yields a score map summing exactly to 1. -/
theorem rule_scorer_fallback_and_sum (chunk : ContentChunk) (f : Features) :
    ((ruleRawScores chunk f).total = 0 →
      (ruleClassify chunk f).scores = ⟨0, 1, 0⟩ ∧
      (ruleClassify chunk f).ctype = .concept ∧
      (ruleClassify chunk f).confidence = 1) ∧
    (0 < (ruleRawScores chunk f).total →
      (ruleClassify chunk f).scores.total = 1) := by
  constructor
  · intro h
    have hnot : ¬ (ruleRawScores chunk f).total > 0 := by
      rw [h]; exact lt_irrefl 0
    refine ⟨?_, ?_, ?_⟩
    · simp only [ruleClassify, if_neg hnot]
    · simp only [ruleClassify, if_neg hnot]
      norm_num [argmaxCanonical, Scores.get]
    · simp only [ruleClassify, if_neg hnot]
      norm_num [argmaxCanonical, Scores.get]
  · intro h
    have hne : (ruleRawScores chunk f).total ≠ 0 := ne_of_gt h
    simp only [ruleClassify, if_pos h]
    show ((ruleRawScores chunk f).normalize (ruleRawScores chunk f).total).total = 1
    unfold Scores.normalize Scores.total
    simp only
    rw [div_add_div_same, div_add_div_same]
    exact div_self hne

/-- C6 witness: a feature map on which no rule fires (a numbered list
alone) hits the fallback, and the default feature map (rule 19 fires)
has a positive total and a normalized sum of 1. -/
theorem rule_scorer_fallback_witness :
    ((ruleRawScores ⟨"c1", "x", "y"⟩ { has_numbered_list := true }).total = 0 ∧
      (ruleClassify ⟨"c1", "x", "y"⟩ { has_numbered_list := true }).ctype = .concept ∧
      (ruleClassify ⟨"c1", "x", "y"⟩ { has_numbered_list := true }).confidence = 1) ∧
    (0 < (ruleRawScores ⟨"c1", "x", "y"⟩ {}).total ∧
      (ruleClassify ⟨"c1", "x", "y"⟩ {}).scores.total = 1) := by
  have hkw1 : anyKeyword (pyLower "x") taskKeywords = false := by decide
  have hkw2 : anyKeyword (pyLower "x") refKeywords = false := by decide
  have hkw3 : anyKeyword (pyLower "x") conceptKeywords = false := by decide
  have h0 : (ruleRawScores ⟨"c1", "x", "y"⟩ { has_numbered_list := true }).total = 0 := by
    norm_num [ruleRawScores, Scores.total, hkw1, hkw2, hkw3]
  have hpos : 0 < (ruleRawScores ⟨"c1", "x", "y"⟩ {}).total := by
    norm_num [ruleRawScores, Scores.total, hkw1, hkw2, hkw3]
  refine ⟨⟨h0, ?_, ?_⟩, ⟨hpos, ?_⟩⟩
  · exact ((rule_scorer_fallback_and_sum ⟨"c1", "x", "y"⟩ { has_numbered_list := true }).1
      h0).2.1
  · exact ((rule_scorer_fallback_and_sum ⟨"c1", "x", "y"⟩ { has_numbered_list := true }).1
      h0).2.2
  · exact (rule_scorer_fallback_and_sum ⟨"c1", "x", "y"⟩ {}).2 hpos

/-- C3 counterexample: two all-zero (non-negative) input score maps give
a fused total of 0 — normalization is skipped and the output sum is 0,
not 1 within any reasonable ε. -/
theorem fuse_sum_counterexample :
    (fuse (3/10) (7/10) (6/10) ⟨0, 0, 0⟩ ⟨0, 0, 0⟩).scores.total = 0 ∧
    |(fuse (3/10) (7/10) (6/10) ⟨0, 0, 0⟩ ⟨0, 0, 0⟩).scores.total - 1| > 1/100 := by
  have h : (fuse (3/10) (7/10) (6/10) ⟨0, 0, 0⟩ ⟨0, 0, 0⟩).scores.total = 0 := by
    norm_num [fuse, fusedRaw, Scores.total, Scores.normalize]
  refine ⟨h, ?_⟩
  rw [h, show (0 : Rat) - 1 = -1 by norm_num, abs_neg, abs_one]
  norm_num

/-- C3 (amended): whenever the pre-normalization fused total is positive
(in particular for any inputs whose score maps each sum to 1 under
weights summing to 1), the output score map sums exactly to 1; the
selected category is always a maximum of the output scores, with exact
ties broken by the canonical order Task, Concept, Reference; an all-zero
fused total skips normalization. -/
theorem fuse_sum_and_argmax (w1 w2 th : Rat) (s1 s2 : Scores) :
    (0 < (fusedRaw w1 w2 s1 s2).total →
      (fuse w1 w2 th s1 s2).scores.total = 1) ∧
    (∀ c, (fuse w1 w2 th s1 s2).scores.get c ≤
      (fuse w1 w2 th s1 s2).scores.get (fuse w1 w2 th s1 s2).ctype) ∧
    (∀ c, (fuse w1 w2 th s1 s2).scores.get c =
        (fuse w1 w2 th s1 s2).scores.get (fuse w1 w2 th s1 s2).ctype →
      catIdx (fuse w1 w2 th s1 s2).ctype ≤ catIdx c) := by
  have hscores : (fuse w1 w2 th s1 s2).scores =
      (if (fusedRaw w1 w2 s1 s2).total > 0 then
        (fusedRaw w1 w2 s1 s2).normalize (fusedRaw w1 w2 s1 s2).total
      else fusedRaw w1 w2 s1 s2) := rfl
  have hctype : (fuse w1 w2 th s1 s2).ctype = argmaxCanonical (fuse w1 w2 th s1 s2).scores := rfl
  refine ⟨?_, ?_, ?_⟩
  · intro h
    have hne : (fusedRaw w1 w2 s1 s2).total ≠ 0 := ne_of_gt h
    rw [hscores, if_pos h]
    unfold Scores.total Scores.normalize
    simp only
    rw [div_add_div_same, div_add_div_same, ← Scores.total]
    exact div_self hne
  · intro c
    rw [hctype]
    exact (argmaxCanonical_spec (fuse w1 w2 th s1 s2).scores).1 c
  · intro c
    rw [hctype]
    exact (argmaxCanonical_spec (fuse w1 w2 th s1 s2).scores).2 c

/-- C3 witness: concrete valid inputs (each summing to 1) with the
default weights have a positive fused total and an output sum of 1, and
the selected category dominates every score. -/
theorem fuse_sum_and_argmax_witness :
    (0 : Rat) < (fusedRaw (3/10) (7/10) ⟨1/2, 1/4, 1/4⟩ ⟨1, 0, 0⟩).total ∧
    (fuse (3/10) (7/10) (6/10) ⟨1/2, 1/4, 1/4⟩ ⟨1, 0, 0⟩).scores.total = 1 ∧
    (∀ c, (fuse (3/10) (7/10) (6/10) ⟨1/2, 1/4, 1/4⟩ ⟨1, 0, 0⟩).scores.get c ≤
      (fuse (3/10) (7/10) (6/10) ⟨1/2, 1/4, 1/4⟩ ⟨1, 0, 0⟩).scores.get
        (fuse (3/10) (7/10) (6/10) ⟨1/2, 1/4, 1/4⟩ ⟨1, 0, 0⟩).ctype) := by
  have hpos : (0 : Rat) < (fusedRaw (3/10) (7/10) ⟨1/2, 1/4, 1/4⟩ ⟨1, 0, 0⟩).total := by
    norm_num [fusedRaw, Scores.total]
  exact ⟨hpos,
    (fuse_sum_and_argmax (3/10) (7/10) (6/10) ⟨1/2, 1/4, 1/4⟩ ⟨1, 0, 0⟩).1 hpos,
    (fuse_sum_and_argmax (3/10) (7/10) (6/10) ⟨1/2, 1/4, 1/4⟩ ⟨1, 0, 0⟩).2.1⟩

/-- C4 counterexample: a well-formed service response whose `type` is the
non-canonical `"Procedure"` is not converted to the low-confidence
evenly-split fallback: the category is silently coerced to Concept while
the parsed confidence 0.9 and scores are kept. -/
theorem llm_classify_counterexample :
    llmClassify true (.resp (some c4fields)) =
      ⟨.concept, max 0 (min 1 (9/10)), .num 0, .str "r"⟩ ∧
    max (0 : Rat) (min 1 (9/10)) = 9/10 ∧
    (llmFallback "e").confidence = 3/10 ∧ ((9 : Rat)/10 ≠ 3/10) := by
  refine ⟨rfl, ?_, rfl, by norm_num⟩
  rw [min_eq_right (by norm_num : (9 : Rat)/10 ≤ 1)]
  exact max_eq_right (by norm_num)

/-- C4 (amended): a failed service call, or a response whose parse raises
(no JSON object, missing required key, unconvertible value), yields the
fixed low-confidence evenly-split fallback — `classify` never propagates
the error; a parseable response is returned as parsed, and a parseable
response with a non-canonical category keeps its parsed confidence
(clamped to `[0,1]`) and scores, only the category being coerced to the
default Concept. -/
theorem llm_classify_fallback (j : Option (List (String × JVal))) (e : String)
    (fields : List (String × JVal)) (t : String) (q : Rat) (sv rv : JVal) :
    (llmClassify true .fail = llmFallback "service call raised") ∧
    (parseLLMResponse j = .error e →
      llmClassify true (.resp j) = llmFallback ("Error: " ++ e)) ∧
    (∀ r, parseLLMResponse j = .ok r → llmClassify true (.resp j) = r) ∧
    (jlookup fields "type" = some (.str t) →
      ¬ pyCapitalize t = "Task" → ¬ pyCapitalize t = "Concept" →
      ¬ pyCapitalize t = "Reference" →
      jlookup fields "confidence" = some (.num q) →
      jlookup fields "scores" = some sv →
      jlookup fields "reasoning" = some rv →
      parseLLMResponse (some fields) = .ok ⟨.concept, max 0 (min 1 q), sv, rv⟩) := by
  refine ⟨rfl, ?_, ?_, ?_⟩
  · intro h
    simp [llmClassify, h]
  · intro r h
    simp [llmClassify, h]
  · intro h1 h2 h3 h4 h5 h6 h7
    simp [parseLLMResponse, h1, h5, h6, h7, h2, h3, h4, jToFloat]

/-- C4 witness: the fallback on a raised call, and the coercion path on
the concrete `"Procedure"` response. -/
theorem llm_classify_fallback_witness :
    llmClassify true SvcOutcome.fail = llmFallback "service call raised" ∧
    parseLLMResponse (some c4fields) =
      .ok ⟨.concept, max 0 (min 1 (9/10)), .num 0, .str "r"⟩ := by
  refine ⟨(llm_classify_fallback none "" [] "" 0 .null .null).1, ?_⟩
  exact (llm_classify_fallback none "" c4fields "Procedure" (9/10) (.num 0) (.str "r")).2.2.2
    rfl (by decide) (by decide) (by decide) rfl rfl rfl

/-- Helper: the queue scan finds nothing when no item matches the id. -/
theorem updateFirstMatch_eq_none (cid label : String) (l : List ReviewItem)
    (h : ∀ it ∈ l, it.chunk_id ≠ cid) : updateFirstMatch cid label l = none := by
  induction l with
  | nil => rfl
  | cons a tl ih =>
    simp only [updateFirstMatch]
    rw [if_neg (h a (by simp)), ih (fun it hit => h it (by simp [hit]))]

/-- Helper: the queue scan updates exactly the first matching item,
whatever its current status. -/
theorem updateFirstMatch_found (cid label : String) (pre : List ReviewItem)
    (it : ReviewItem) (post : List ReviewItem)
    (hpre : ∀ p ∈ pre, p.chunk_id ≠ cid) (hit : it.chunk_id = cid) :
    updateFirstMatch cid label (pre ++ it :: post) =
      some (pre ++ { it with status := "reviewed", human_label := some label } :: post,
            { it with status := "reviewed", human_label := some label }) := by
  induction pre with
  | nil => simp only [List.nil_append, updateFirstMatch, if_pos hit]
  | cons a tl ih =>
    simp only [List.cons_append, updateFirstMatch, List.append_eq]
    rw [if_neg (hpre a (by simp)), ih (fun p hp => hpre p (by simp [hp]))]

/-- C1 counterexample: on the unknown id `"zz"` the call returns silently
(after logging) instead of raising `NotFound`; and repeating the same
valid submission for `"b1"` matches the already-reviewed item again and
appends a second training example. -/
theorem submit_label_counterexample :
    (submitHumanLabel c1State "zz" "Task").1 = .returnedNotFound ∧
    (submitHumanLabel c1State "zz" "Task").2 = c1State ∧
    (submitHumanLabel c1State "b1" "Task").1 = .completed ∧
    (submitHumanLabel c1State "b1" "Task").2.training.length = 1 ∧
    ((submitHumanLabel c1State "b1" "Task").2.pending.map (fun it => it.status)) =
      ["reviewed"] ∧
    (submitHumanLabel (submitHumanLabel c1State "b1" "Task").2 "b1" "Task").1 = .completed ∧
    (submitHumanLabel (submitHumanLabel c1State "b1" "Task").2 "b1" "Task").2.training.length
      = 2 :=
  ⟨rfl, rfl, rfl, rfl, rfl, rfl, rfl⟩

/-- C1 (amended): for a canonical label, `submit_human_label` on an id
matching no queue item logs and returns with the state unchanged (no
exception is raised, so the failure is not surfaced to the caller); on a
state whose first matching item is found, it marks that item reviewed
and appends exactly one training example — but the scan does not check
the item's status, so an already-reviewed item is matched and re-appended
by a repeated submission. -/
theorem submit_label_amended (st : QueueState) (cid label : String)
    (hlabel : label ∈ canonicalLabels) :
    ((∀ it ∈ st.pending, it.chunk_id ≠ cid) →
      submitHumanLabel st cid label = (.returnedNotFound, st)) ∧
    (∀ pre it post, st.pending = pre ++ it :: post →
      (∀ p ∈ pre, p.chunk_id ≠ cid) → it.chunk_id = cid →
      submitHumanLabel st cid label =
        (.completed,
         ⟨pre ++ { it with status := "reviewed", human_label := some label } :: post,
          st.training ++
            [mkTrainingExample
              { it with status := "reviewed", human_label := some label }]⟩)) := by
  have hcont : canonicalLabels.contains label = true := by
    simpa [List.contains] using hlabel
  constructor
  · intro h
    simp only [submitHumanLabel, hcont, not_true, if_false,
      updateFirstMatch_eq_none cid label st.pending h]
  · intro pre it post hsplit hpre hit
    simp only [submitHumanLabel, hcont, not_true, if_false, hsplit,
      updateFirstMatch_found cid label pre it post hpre hit]

/-- C1 witness: the amended behaviour at the concrete one-item queue. -/
theorem submit_label_witness :
    submitHumanLabel c1State "b1" "Task" =
      (.completed,
       ⟨[{ chunk_id := "b1", title := "Install guide", content := "Step 1 ...",
           tier1_type := "Task", tier1_confidence := 1/2,
           tier2_type := "Concept", tier2_confidence := 2/5,
           status := "reviewed", human_label := some "Task" }],
        [⟨"Install guide", "Step 1 ...", "Task", "Task", "Concept", 1/2, 2/5⟩]⟩) := by
  have h := (submit_label_amended c1State "b1" "Task" (by decide)).2 []
    ⟨"b1", "Install guide", "Step 1 ...", "Task", 1/2, "Concept", 2/5, "pending", none⟩ []
    rfl (by simp) rfl
  simpa [mkTrainingExample] using h

/-- C7: the deterministic score formulas and the status
characterization — `failed` iff a validator error or an error-severity
custom finding remains, `passed_with_warnings` iff no such error but a
validator warning or a counted custom warning remains, `passed`
otherwise. -/
theorem quality_scores_and_status (v : ValidationOutcome) (c : CustomChecksResult)
    (l : LoopSummary) :
    ((calculateQualityScores v c l).dita_compliance =
      if v.is_valid then 1 else max 0 (1 - (v.errors.length : Rat) * (1/10))) ∧
    ((calculateQualityScores v c l).overall_quality =
      (calculateQualityScores v c l).dita_compliance * (2/5) +
      (calculateQualityScores v c l).structure_quality * (3/10) +
      (calculateQualityScores v c l).content_completeness * (3/10)) ∧
    (determineOverallStatus v c = .failed ↔
      v.is_valid = false ∨ ∃ fr ∈ c.failed, ∃ i ∈ fr.issues, i.severity = "error") ∧
    (determineOverallStatus v c = .passed_with_warnings ↔
      ¬ (v.is_valid = false ∨ ∃ fr ∈ c.failed, ∃ i ∈ fr.issues, i.severity = "error") ∧
      (v.warnings ≠ [] ∨ 0 < lookupCount c.issues_by_severity "warning")) ∧
    (determineOverallStatus v c = .passed ↔
      ¬ (v.is_valid = false ∨ ∃ fr ∈ c.failed, ∃ i ∈ fr.issues, i.severity = "error") ∧
      ¬ (v.warnings ≠ [] ∨ 0 < lookupCount c.issues_by_severity "warning")) := by
  refine ⟨rfl, rfl, ?_, ?_, ?_⟩ <;>
  · unfold determineOverallStatus
    split_ifs with h1 h2 <;>
      simp_all [List.any_eq_true, List.length_pos] <;>
      tauto

/-- C7 witness: a non-validating document is reported `failed`. -/
theorem quality_status_witness :
    determineOverallStatus ⟨false, [xmlSyntaxError], []⟩ ⟨[], 0, []⟩ = .failed :=
  ((quality_scores_and_status ⟨false, [xmlSyntaxError], []⟩ ⟨[], 0, []⟩
    ⟨true, 1⟩).2.2.1).mpr (Or.inl rfl)

/-- C5: a document that fails to parse yields an invalid result carrying
exactly the one parse-failure error and nothing else (no further checks
run); a well-formed document gets the detection pass, the full
type-specific pass and the full common pass concatenated into one error
list — no short-circuiting — with the common warnings alongside, and
validity is exactly emptiness of that error list. -/
theorem validator_passes (ct : Option String) (b : Bool) (d : XDoc) :
    (validateBuiltin (.bad b) ct = ⟨false, [xmlSyntaxError], []⟩) ∧
    ((validateBuiltin (.bad b) ct).errors.length = 1) ∧
    ((validateBuiltin (.ok d) ct).errors =
      (detectContentType d.root ct).1 ++
      typeSpecificErrors d.root (detectContentType d.root ct).2 ++
      (validateCommonRules d.root).1) ∧
    ((validateBuiltin (.ok d) ct).warnings = (validateCommonRules d.root).2) ∧
    ((validateBuiltin (.ok d) ct).is_valid =
      (validateBuiltin (.ok d) ct).errors.isEmpty) :=
  ⟨rfl, rfl, rfl, rfl, rfl⟩

/-- C5 witness: the decomposition at a concrete malformed input and a
concrete well-formed concept document (which validates cleanly). -/
theorem validator_passes_witness :
    validateBuiltin (Doc.bad true) (some "Concept") = ⟨false, [xmlSyntaxError], []⟩ ∧
    (validateBuiltin (.ok c5doc) (some "Concept")).errors =
      (detectContentType c5doc.root (some "Concept")).1 ++
      typeSpecificErrors c5doc.root (detectContentType c5doc.root (some "Concept")).2 ++
      (validateCommonRules c5doc.root).1 ∧
    (validateBuiltin (.ok c5doc) (some "Concept")).is_valid = true :=
  ⟨(validator_passes (some "Concept") true c5doc).1,
   (validator_passes (some "Concept") true c5doc).2.2.1,
   by decide⟩

/-- C10: `repair`'s reported success is exactly emptiness of
`remaining_errors` (computed with no re-validation of the produced
document); and whenever the error list is non-empty and entirely
complex, a model-tier response that is well-formed and differs from the
input removes all the errors at once — the repairer reports success with
the returned document as-is, irrespective of whether that document
satisfies the structural contract. -/
theorem repair_success_semantics (useAI : Bool) (llm : LLMRepairOutcome) (doc : Doc)
    (errors : List VError) (d : XDoc) :
    ((repair useAI llm doc errors).success =
      (repair useAI llm doc errors).remaining_errors.isEmpty) ∧
    ((∀ e ∈ errors, isSimpleError e = false) → errors ≠ [] → Doc.ok d ≠ doc →
      repair true (some (some d)) doc errors =
        { success := true, repaired_xml := .ok d,
          applied_fixes := [{ rtype := "LLMRepair",
                              action := "LLM修复了 " ++ toString errors.length ++ " 个错误",
                              errors := errors.map (fun e => e.message) }],
          remaining_errors := [] }) := by
  constructor
  · rfl
  · intro hall hne hdiff
    have hsimple : errors.filter (fun e => isSimpleError e) = [] := by
      rw [List.filter_eq_nil_iff]
      intro a ha
      simp [hall a ha]
    have hcomplex : errors.filter (fun e => !isSimpleError e) = errors := by
      rw [List.filter_eq_self]
      intro a ha
      simp [hall a ha]
    have hex : ∃ x ∈ errors, isSimpleError x = false := by
      rcases errors with _ | ⟨a, tl⟩
      · exact absurd rfl hne
      · exact ⟨a, by simp, hall a (by simp)⟩
    have hrem : errors.filter (fun e => !decide (e ∈ errors) || isSimpleError e) = [] := by
      rw [List.filter_eq_nil_iff]
      intro a ha
      simp [ha, hall a ha]
    simp [repair, hsimple, hcomplex, applyLlmFixes, hdiff, hne, hrem, hex]

/-- C10 witness: a task missing its `<cmd>` (one complex error); the
model tier returns a different document with the same defect; the
repairer reports success even though the result still fails
validation. -/
theorem repair_success_witness :
    (∀ e ∈ c10errs, isSimpleError e = false) ∧ c10errs ≠ [] ∧
    Doc.ok c10docB ≠ Doc.ok c10docA ∧
    (repair true (some (some c10docB)) (.ok c10docA) c10errs).success = true ∧
    (repair true (some (some c10docB)) (.ok c10docA) c10errs).repaired_xml = .ok c10docB ∧
    (validateBuiltin (.ok c10docB) (some "Task")).is_valid = false := by
  refine ⟨by decide, by decide, by decide, ?_, ?_, by decide⟩ <;>
  · rw [(repair_success_semantics true (some (some c10docB)) (.ok c10docA) c10errs
      c10docB).2 (by decide) (by decide) (by decide)]

/-- C8 counterexample: on the concept document with ids `a`, `a`, `a_2`
the first deterministic-tier application (against the validator-derived
error list) renames the second `a` to `a_2`, colliding with the existing
`a_2`; re-validating the fixed document re-derives a `DuplicateID`
error, so a second application produces a further RepairAction and
changes the document again. -/
theorem deterministic_tier_counterexample :
    c8fix1.2 ≠ [] ∧ c8fix1.1 ≠ c8doc ∧ c8fix2.2 ≠ [] ∧ c8fix2.1 ≠ c8fix1.1 := by
  refine ⟨by decide, by decide, by decide, by decide⟩

/-- Helper: one step of the `_apply_rule_fixes` loop either returns its
accumulator unchanged or appends exactly one action. -/
theorem applyOneRuleFix_progress (acc : XDoc × List RepairAction) (e : VError) :
    applyOneRuleFix acc e = acc ∨
    ∃ d a, applyOneRuleFix acc e = (d, acc.2 ++ [a]) := by
  unfold applyOneRuleFix
  dsimp only
  rcases e.id with _ | invalid <;> rcases e.element with _ | name <;>
    dsimp only <;>
    split_ifs <;>
    first
      | exact Or.inl rfl
      | exact Or.inr ⟨_, _, rfl⟩

/-- Helper: the action list of the rule-fix fold only grows. -/
theorem applyRuleFixes_fold_len (errors : List VError) :
    ∀ acc : XDoc × List RepairAction,
      acc.2.length ≤ (errors.foldl applyOneRuleFix acc).2.length := by
  induction errors with
  | nil => intro acc; exact le_refl _
  | cons e tl ih =>
    intro acc
    refine le_trans ?_ (ih (applyOneRuleFix acc e))
    rcases applyOneRuleFix_progress acc e with h | ⟨d, a, h⟩
    · rw [h]
    · rw [h]
      simp

/-- Helper: a rule-fix fold that produced no new action left the
accumulator untouched. -/
theorem applyRuleFixes_fold_stable (errors : List VError) :
    ∀ acc : XDoc × List RepairAction,
      (errors.foldl applyOneRuleFix acc).2.length = acc.2.length →
      errors.foldl applyOneRuleFix acc = acc := by
  induction errors with
  | nil => intro acc _; rfl
  | cons e tl ih =>
    intro acc hlen
    rw [List.foldl_cons] at hlen ⊢
    rcases applyOneRuleFix_progress acc e with h | ⟨d, a, h⟩
    · rw [h] at hlen ⊢
      exact ih acc hlen
    · exfalso
      have h1 := applyRuleFixes_fold_len tl (applyOneRuleFix acc e)
      rw [h] at hlen h1
      rw [hlen] at h1
      simp only [List.length_append, List.length_cons, List.length_nil] at h1
      omega

/-- C8 (amended): the deterministic tier is total and conservative — an
application that records no RepairAction leaves the document unchanged,
and an application whose (re-derived) error list contains no simple
kinds records nothing and changes nothing.  Idempotence in general
fails: a fix may introduce a new simple error (duplicate-id renaming can
collide with an existing id), so re-applying the tier to the fixed
document with its re-derived error list may act again. -/
theorem deterministic_tier_amended (doc : XDoc) (errors : List VError) :
    ((deterministicTier doc errors).2 = [] → (deterministicTier doc errors).1 = doc) ∧
    (errors.filter (fun e => isSimpleError e) = [] →
      deterministicTier doc errors = (doc, [])) := by
  constructor
  · intro h
    have hlen : ((errors.filter (fun e => isSimpleError e)).foldl applyOneRuleFix
        (doc, ([] : List RepairAction))).2.length = 0 := by
      unfold deterministicTier applyRuleFixes at h
      rw [h]
      rfl
    have := applyRuleFixes_fold_stable (errors.filter (fun e => isSimpleError e))
      (doc, ([] : List RepairAction)) (by simpa using hlen)
    unfold deterministicTier applyRuleFixes
    rw [this]
  · intro h
    unfold deterministicTier applyRuleFixes
    rw [h]
    rfl

/-- Helper: the loop-body invariant — the iteration counter never passes
the bound, the validation history has one entry per iteration, and every
recorded repair either made progress (claimed success or applied fixes)
or is the final entry of a loop that broke out, non-successfully, in that
same iteration. -/
theorem loopGo_invariant (maxIter : Nat) (useAI : Bool) (oracle : RepairOracle)
    (ct : Option String) :
    ∀ (fuel : Nat) (st : LoopState),
      st.iteration ≤ maxIter →
      st.vhist.length = st.iteration →
      (∀ p ∈ st.rhist, p.2.success = true ∨ p.2.applied_fixes ≠ []) →
      (loopGo maxIter useAI oracle ct fuel st).1.iteration ≤ maxIter ∧
      (loopGo maxIter useAI oracle ct fuel st).1.vhist.length =
        (loopGo maxIter useAI oracle ct fuel st).1.iteration ∧
      (∀ p ∈ (loopGo maxIter useAI oracle ct fuel st).1.rhist,
        (p.2.success = true ∨ p.2.applied_fixes ≠ []) ∨
        ((loopGo maxIter useAI oracle ct fuel st).1.iteration = p.1 ∧
         (loopGo maxIter useAI oracle ct fuel st).2.1 = false)) := by
  intro fuel
  induction fuel with
  | zero =>
    intro st h1 h2 h3
    exact ⟨h1, h2, fun p hp => Or.inl (h3 p hp)⟩
  | succ fuel ih =>
    intro st h1 h2 h3
    by_cases hlt : st.iteration < maxIter
    · by_cases hvalid : (validateBuiltin st.current ct).is_valid = true
      · have hout : loopGo maxIter useAI oracle ct (fuel + 1) st =
            (⟨st.current, st.iteration + 1,
              st.vhist ++ [(st.iteration + 1, validateBuiltin st.current ct)], st.rhist⟩,
             true, some (validateBuiltin st.current ct)) := by
          unfold loopGo
          rw [if_pos hlt, if_pos hvalid]
        rw [hout]
        refine ⟨hlt, ?_, fun p hp => Or.inl (h3 p hp)⟩
        simp [h2]
      · by_cases hlast : st.iteration + 1 < maxIter
        · by_cases hprog :
            (repair useAI (oracle (st.iteration + 1)) st.current
              (validateBuiltin st.current ct).errors).success = true ∨
            ¬ (repair useAI (oracle (st.iteration + 1)) st.current
              (validateBuiltin st.current ct).errors).applied_fixes.isEmpty = true
          · have hout : loopGo maxIter useAI oracle ct (fuel + 1) st =
                loopGo maxIter useAI oracle ct fuel
                  ⟨(repair useAI (oracle (st.iteration + 1)) st.current
                      (validateBuiltin st.current ct).errors).repaired_xml,
                   st.iteration + 1,
                   st.vhist ++ [(st.iteration + 1, validateBuiltin st.current ct)],
                   st.rhist ++ [(st.iteration + 1,
                     repair useAI (oracle (st.iteration + 1)) st.current
                       (validateBuiltin st.current ct).errors)]⟩ := by
              conv_lhs => rw [loopGo]
              rw [if_pos hlt, if_neg hvalid, if_pos hlast, if_pos hprog]
            rw [hout]
            refine ih _ (le_of_lt hlast) (by simp [h2]) ?_
            intro p hp
            rcases List.mem_append.mp hp with hp | hp
            · exact h3 p hp
            · have hpp : p = (st.iteration + 1,
                  repair useAI (oracle (st.iteration + 1)) st.current
                    (validateBuiltin st.current ct).errors) := by
                simpa using hp
              subst hpp
              rcases hprog with hs | hf
              · exact Or.inl hs
              · refine Or.inr ?_
                simpa [List.isEmpty_eq_true] using hf
          · have hout : loopGo maxIter useAI oracle ct (fuel + 1) st =
                (⟨st.current, st.iteration + 1,
                  st.vhist ++ [(st.iteration + 1, validateBuiltin st.current ct)],
                  st.rhist ++ [(st.iteration + 1,
                    repair useAI (oracle (st.iteration + 1)) st.current
                      (validateBuiltin st.current ct).errors)]⟩,
                 false, none) := by
              unfold loopGo
              rw [if_pos hlt, if_neg hvalid, if_pos hlast, if_neg hprog]
            rw [hout]
            refine ⟨hlt, by simp [h2], ?_⟩
            intro p hp
            rcases List.mem_append.mp hp with hp | hp
            · exact Or.inl (h3 p hp)
            · have hpp : p = (st.iteration + 1,
                  repair useAI (oracle (st.iteration + 1)) st.current
                    (validateBuiltin st.current ct).errors) := by
                simpa using hp
              subst hpp
              exact Or.inr ⟨rfl, rfl⟩
        · have hout : loopGo maxIter useAI oracle ct (fuel + 1) st =
              (⟨st.current, st.iteration + 1,
                st.vhist ++ [(st.iteration + 1, validateBuiltin st.current ct)], st.rhist⟩,
               false, none) := by
            unfold loopGo
            rw [if_pos hlt, if_neg hvalid, if_neg hlast]
          rw [hout]
          exact ⟨hlt, by simp [h2], fun p hp => Or.inl (h3 p hp)⟩
    · have hout : loopGo maxIter useAI oracle ct (fuel + 1) st = (st, false, none) := by
        unfold loopGo
        rw [if_neg hlt]
      rw [hout]
      exact ⟨h1, h2, fun p hp => Or.inl (h3 p hp)⟩

/-- C2 counterexample: on `c2doc` (whose only error is the `EmptyElement`
on `<steps>`, which the rule fix "applies" without removing anything)
every repair pass returns the document unchanged while claiming success,
so the loop does not take the early exit: it runs all 3 iterations — the
iteration-1 repair produced no document change yet the loop did not
terminate in iteration 1, and validation passes were consumed at
iterations 2 and 3. -/
theorem loop_no_change_counterexample :
    (runLoop 3 false (fun _ => none) (.ok c2doc) (some "Task")).repair_history.map
      (fun p => (p.1, p.2.repaired_xml == Doc.ok c2doc, p.2.success)) =
      [(1, true, true), (2, true, true)] ∧
    (runLoop 3 false (fun _ => none) (.ok c2doc) (some "Task")).final_xml = .ok c2doc ∧
    (runLoop 3 false (fun _ => none) (.ok c2doc) (some "Task")).iterations = 3 ∧
    (runLoop 3 false (fun _ => none) (.ok c2doc) (some "Task")).validation_history.map
      Prod.fst = [1, 2, 3] ∧
    (runLoop 3 false (fun _ => none) (.ok c2doc) (some "Task")).success = false :=
  ⟨by decide, by decide, by decide, by decide, by decide⟩

/-- C2 (amended): the loop performs at most `max_iterations` iterations
(the reported count never exceeds the bound, and equals the number of
in-loop validation passes); whenever a repair pass applies no fixes and
does not claim success, the loop ends in that same iteration in the
non-success state with no further validate→repair iterations (one final
out-of-loop validation of the unchanged document is still performed).
A repair pass that claims fixes or success while leaving the document
unchanged does not trigger the early exit. -/
theorem loop_bound_and_no_progress_exit (maxIter : Nat) (useAI : Bool)
    (oracle : RepairOracle) (doc : Doc) (ct : Option String) (res : LoopResult)
    (hres : res = runLoop maxIter useAI oracle doc ct) :
    res.iterations ≤ maxIter ∧
    res.validation_history.length = res.iterations ∧
    (∀ p ∈ res.repair_history, p.2.success = false → p.2.applied_fixes = [] →
      res.iterations = p.1 ∧ res.success = false) ∧
    (res.success = false →
      res.final_validation = some (validateBuiltin res.final_xml ct)) := by
  subst hres
  have h := loopGo_invariant maxIter useAI oracle ct maxIter ⟨doc, 0, [], []⟩
    (Nat.zero_le _) rfl (by simp)
  refine ⟨h.1, h.2.1, ?_, ?_⟩
  · intro p hp hsucc hfix
    rcases h.2.2 p hp with hgood | hend
    · rcases hgood with hs | hf
      · rw [hsucc] at hs
        exact absurd hs (by simp)
      · exact absurd hfix hf
    · exact hend
  · intro hs
    have hs' : (loopGo maxIter useAI oracle ct maxIter ⟨doc, 0, [], []⟩).2.1 = false := hs
    show (if (loopGo maxIter useAI oracle ct maxIter ⟨doc, 0, [], []⟩).2.1 = true then
        (loopGo maxIter useAI oracle ct maxIter ⟨doc, 0, [], []⟩).2.2
      else some (validateBuiltin
        (loopGo maxIter useAI oracle ct maxIter ⟨doc, 0, [], []⟩).1.current ct)) =
      some (validateBuiltin
        (loopGo maxIter useAI oracle ct maxIter ⟨doc, 0, [], []⟩).1.current ct)
    rw [hs']
    simp

/-- C2 witness: the amended properties at the concrete `c2doc` run. -/
theorem loop_bound_witness :
    (runLoop 3 false (fun _ => none) (.ok c2doc) (some "Task")).iterations ≤ 3 ∧
    (runLoop 3 false (fun _ => none) (.ok c2doc) (some "Task")).validation_history.length =
      (runLoop 3 false (fun _ => none) (.ok c2doc) (some "Task")).iterations :=
  ⟨(loop_bound_and_no_progress_exit 3 false (fun _ => none) (.ok c2doc) (some "Task")
      _ rfl).1,
   (loop_bound_and_no_progress_exit 3 false (fun _ => none) (.ok c2doc) (some "Task")
      _ rfl).2.1⟩

/-- C8 witness: the amended statement at the already-converged fixed
point — a document whose re-derived error list has no simple kinds. -/
theorem deterministic_tier_amended_witness :
    deterministicTier c8doc
      ((validateBuiltin (.ok c8doc) (some "Concept")).errors.filter
        (fun e => ¬ isSimpleError e)) = (c8doc, []) ∧
    (deterministicTier c8doc []).1 = c8doc :=
  ⟨(deterministic_tier_amended c8doc _).2 (by decide),
   (deterministic_tier_amended c8doc []).1 rfl⟩

end DitaCore

